import Mathlib

/-!
Shallow embedding of the wbsoft seller-crawler core pipeline
(`src/core.py`): passport resolution with volume fallback, product price
resolution and discount computation, catalog aggregation with ranked
top-3 lists, row building, and the worker progress loop.

Numbers: raw JSON prices are integers (minor currency units); converted
amounts and discount percentages are modelled as rationals.  Python's
`round(x, n)` is modelled as exact decimal rounding half-to-even over ℚ.
JSON objects holding price components are modelled as association lists.
-/

namespace WBSoft

/-- Floor of a rational as an integer (`num` floor-divided by `den`,
which is positive on normalized rationals). -/
def ratFloor (q : ℚ) : ℤ := q.num.fdiv (q.den : ℤ)

/-- Round a rational to the nearest integer, ties to even
(the rounding mode of Python's `round`). -/
def roundHalfEvenZ (q : ℚ) : ℤ :=
  let f : ℤ := ratFloor q
  let r : ℚ := q - (f : ℚ)
  if r < 1/2 then f
  else if 1/2 < r then f + 1
  else if f % 2 = 0 then f else f + 1

/-- Python `round(q, n)` modelled exactly over ℚ. -/
def pyRound (q : ℚ) (n : ℕ) : ℚ :=
  ((roundHalfEvenZ (q * 10 ^ n) : ℚ)) / 10 ^ n

/-- Python truthiness of an optional string (`None` and `""` are falsy). -/
def strTruthy : Option String → Bool
  | some s => decide (s ≠ "")
  | none => false

/-- Python `a or b` on optional integers (`None` and `0` are falsy). -/
def pyOrI : Option Int → Option Int → Option Int
  | some v, b => if v = 0 then b else some v
  | none, b => b

/-- Python `a or b` on optional strings (`None` and `""` are falsy). -/
def pyOrS (a b : Option String) : Option String :=
  if strTruthy a then a else b

/-- Keep an optional rational only when truthy (`None` and `0` falsy). -/
def truthyQ : Option ℚ → Option ℚ
  | some v => if v = 0 then none else some v
  | none => none

/-- Keep an optional integer only when truthy (`None` and `0` falsy). -/
def truthyI : Option Int → Option Int
  | some v => if v = 0 then none else some v
  | none => none

/-- Lookup in a JSON-object-as-association-list (`dict.get`). -/
def dictGet (d : List (String × Int)) (k : String) : Option Int :=
  (d.find? (fun e => e.1 = k)).map (fun e => e.2)

/-- One catalog product entry `g` as read from the catalog JSON.
`price = none` models both an absent `price` key and a non-dict value;
each element of `sizes` is the size variant's `price` sub-object when it
is a dict, else `none`. -/
structure Product where
  id : Option Int := none
  subjectName : Option String := none
  entity : Option String := none
  brand : Option String := none
  price : Option (List (String × Int)) := none
  sizes : List (Option (List (String × Int))) := []
  priceU : Option Int := none
  salePriceU : Option Int := none
  promoTextCard : Option String := none
  rating : Option ℚ := none
  feedbacks : Option Int := none
deriving DecidableEq

/-- The price dict taken from `sizes[0]` when the primary block is falsy. -/
def sizesFallback (g : Product) : List (String × Int) :=
  match g.sizes with
  | some d :: _ => d
  | _ => []

/-- `price_block`: the primary `price` dict, or the first size variant's
price dict when the primary is absent, not a dict, or empty. -/
def priceBlockOf (g : Product) : List (String × Int) :=
  let pb := g.price.getD []
  if pb = [] then sizesFallback g else pb

/-- `price_block.get(k)`. -/
def blockGet (g : Product) (k : String) : Option Int :=
  dictGet (priceBlockOf g) k

/-- `basic_raw = price_block.get("basic") or g.get("priceU")`. -/
def rawBasicOf (g : Product) : Option Int := pyOrI (blockGet g "basic") g.priceU

/-- `product_raw = price_block.get("product") or g.get("salePriceU")`. -/
def rawProductOf (g : Product) : Option Int := pyOrI (blockGet g "product") g.salePriceU

/-- `total_raw = price_block.get("total")`. -/
def rawTotalOf (g : Product) : Option Int := blockGet g "total"

/-- `logistics_raw = price_block.get("logistics")`. -/
def rawLogisticsOf (g : Product) : Option Int := blockGet g "logistics"

/-- `x_raw / 100 if x_raw else None`: convert minor units to rubles;
falsy raw values (absent or zero) become `none`. -/
def toRub : Option Int → Option ℚ
  | some v => if v = 0 then none else some ((v : ℚ) / 100)
  | none => none

def basicOf (g : Product) : Option ℚ := toRub (rawBasicOf g)

def productOf (g : Product) : Option ℚ := toRub (rawProductOf g)

def totalOf (g : Product) : Option ℚ := toRub (rawTotalOf g)

def logisticsOf (g : Product) : Option ℚ := toRub (rawLogisticsOf g)

/-- `promo_price = product if product is not None else basic`. -/
def promoPriceOf (g : Product) : Option ℚ :=
  match productOf g with
  | some p => some p
  | none => basicOf g

/-- Per-product discount percent: `round((basic - product) / basic * 100, 1)`
when both converted prices are present and `basic > 0`, else `0`. -/
def prodDiscount (g : Product) : ℚ :=
  match basicOf g, productOf g with
  | some b, some p => if 0 < b then pyRound ((b - p) / b * 100) 1 else 0
  | _, _ => 0

/-- `cat_name = g.get("subjectName") or g.get("entity") or ""`. -/
def catNameOf (g : Product) : String := (pyOrS g.subjectName g.entity).getD ""

/-- `brand_name = g.get("brand") or ""`. -/
def brandNameOf (g : Product) : String := g.brand.getD ""

/-- The 8-field discount record
`(id, disc, promoText, basic, product, total, logistics, rating)`;
the all-`none` value is the padding record `(None,) * 8`. -/
structure DiscItem where
  id : Option Int := none
  disc : Option ℚ := none
  promo : Option String := none
  basic : Option ℚ := none
  product : Option ℚ := none
  total : Option ℚ := none
  logistics : Option ℚ := none
  rating : Option ℚ := none
deriving DecidableEq

def nullDiscItem : DiscItem := {}

/-- The discount record appended for one product. -/
def discItemOf (g : Product) : DiscItem :=
  { id := g.id, disc := some (prodDiscount g), promo := g.promoTextCard,
    basic := basicOf g, product := productOf g, total := totalOf g,
    logistics := logisticsOf g, rating := g.rating }

/-- `d[k] = d.get(k, 0) + 1` on an insertion-ordered association list. -/
def bump : List (String × ℕ) → String → List (String × ℕ)
  | [], k => [(k, 1)]
  | (k', v) :: t, k => if k' = k then (k', v + 1) :: t else (k', v) :: bump t k

/-- `promo_types_set.add(text)` when the text is truthy; the set is
modelled as an insertion-ordered duplicate-free list. -/
def addPromo (l : List String) (o : Option String) : List String :=
  if strTruthy o then
    let s := o.getD ""
    if s ∈ l then l else l ++ [s]
  else l

/-- Accumulator state of the per-product loop in `fetch_goods_sample`. -/
structure AggState where
  cats : List (String × ℕ) := []
  brands : List (String × ℕ) := []
  prices : List ℚ := []
  basicPrices : List ℚ := []
  productPrices : List ℚ := []
  totalPrices : List ℚ := []
  logisticsPrices : List ℚ := []
  ratings : List ℚ := []
  feedbacks : List Int := []
  discList : List ℚ := []
  promoTypes : List String := []
  discountItems : List DiscItem := []
  goodsSeen : ℕ := 0

/-- Process one product `g`: one loop iteration of `fetch_goods_sample`. -/
def stepProduct (st : AggState) (g : Product) : AggState :=
  { st with
    goodsSeen := st.goodsSeen + 1
    cats := bump st.cats (catNameOf g)
    brands := bump st.brands (brandNameOf g)
    prices := st.prices ++ (promoPriceOf g).toList
    basicPrices := st.basicPrices ++ (basicOf g).toList
    productPrices := st.productPrices ++ (productOf g).toList
    totalPrices := st.totalPrices ++ (totalOf g).toList
    logisticsPrices := st.logisticsPrices ++ (logisticsOf g).toList
    ratings := st.ratings ++ (truthyQ g.rating).toList
    feedbacks := st.feedbacks ++ (truthyI g.feedbacks).toList
    discList := st.discList ++ [prodDiscount g]
    promoTypes := addPromo st.promoTypes g.promoTextCard
    discountItems := st.discountItems ++ [discItemOf g] }

/-- Run the per-product loop over all processed products. -/
def aggState (products : List Product) : AggState :=
  products.foldl stepProduct {}

/-- Insert into a list already sorted in descending key order, placing the
new element before the first element whose key does not exceed it.
Processing the input right-to-left makes this the stable descending sort,
i.e. Python's stable `sorted(..., key=lambda x: -key(x))`. -/
def insKey {α β : Type} [LinearOrder β] (key : α → β) (a : α) : List α → List α
  | [] => [a]
  | b :: l => if key b ≤ key a then a :: b :: l else b :: insKey key a l

/-- Stable sort by descending key, the embedding of Python's
`sorted(l, key=lambda x: -key(x))`. -/
def sortKey {α β : Type} [LinearOrder β] (key : α → β) : List α → List α
  | [] => []
  | a :: l => insKey key a (sortKey key l)

/-- `top_n(d, 3) = sorted(d.items(), key=lambda x: -x[1])[:3]`. -/
def topN (d : List (String × ℕ)) : List (String × ℕ) :=
  (sortKey (fun e => e.2) d).take 3

/-- Sort key of a discount record (`lambda x: -x[1]`); every record built
from a product carries `some` discount. -/
def discKey (it : DiscItem) : ℚ := it.disc.getD 0

/-- `sorted(discount_items, key=lambda x: -x[1])[:3]`. -/
def topDisc (items : List DiscItem) : List DiscItem :=
  (sortKey discKey items).take 3

/-- `min(l)` of a nonempty list, `None` otherwise. -/
def listMin : List ℚ → Option ℚ
  | [] => none
  | a :: l => some (l.foldl min a)

/-- `max(l)` of a nonempty list, `None` otherwise. -/
def listMax : List ℚ → Option ℚ
  | [] => none
  | a :: l => some (l.foldl max a)

/-- `round(sum(l) / len(l), nd)` of a nonempty list, `None` otherwise. -/
def avgR (nd : ℕ) : List ℚ → Option ℚ
  | [] => none
  | a :: l => some (pyRound ((a :: l).sum / (a :: l).length) nd)

/-- `sum(l)` of a nonempty list, `None` otherwise. -/
def sumOpt : List Int → Option Int
  | [] => none
  | a :: l => some ((a :: l).sum)

/-- The aggregate dictionary returned by `fetch_goods_sample`. -/
structure Sample where
  subjectsCount : ℕ
  topSubjects : List (Option String)
  topBrands : List (Option String)
  priceMin : Option ℚ
  priceAvg : Option ℚ
  priceMax : Option ℚ
  basicMin : Option ℚ
  basicAvg : Option ℚ
  basicMax : Option ℚ
  productMin : Option ℚ
  productAvg : Option ℚ
  productMax : Option ℚ
  totalMin : Option ℚ
  totalAvg : Option ℚ
  totalMax : Option ℚ
  logisticsAvg : Option ℚ
  ratingAvgProd : Option ℚ
  feedbacksSum : Option Int
  discountAvg : Option ℚ
  discountMax : Option ℚ
  promoCount : ℕ
  promoTypes : Option String
  topDiscountItems : List DiscItem

/-- Finalization of `fetch_goods_sample`: ranked lists, padding and
aggregate statistics built from the accumulated state. -/
def finalize (st : AggState) : Sample :=
  let topCats := topN st.cats
  let topBrands := topN st.brands
  let discSorted := topDisc st.discountItems
  { subjectsCount := st.cats.length
    topSubjects := topCats.map (fun c => some c.1) ++
      List.replicate (3 - topCats.length) none
    topBrands := topBrands.map (fun b => some b.1) ++
      List.replicate (3 - topBrands.length) none
    priceMin := listMin st.prices
    priceAvg := avgR 2 st.prices
    priceMax := listMax st.prices
    basicMin := listMin st.basicPrices
    basicAvg := avgR 2 st.basicPrices
    basicMax := listMax st.basicPrices
    productMin := listMin st.productPrices
    productAvg := avgR 2 st.productPrices
    productMax := listMax st.productPrices
    totalMin := listMin st.totalPrices
    totalAvg := avgR 2 st.totalPrices
    totalMax := listMax st.totalPrices
    logisticsAvg := avgR 2 st.logisticsPrices
    ratingAvgProd := avgR 2 st.ratings
    feedbacksSum := sumOpt st.feedbacks
    discountAvg := avgR 1 st.discList
    discountMax := listMax st.discList
    promoCount := st.promoTypes.length
    promoTypes := if st.promoTypes = [] then none
      else some (String.intercalate "|" st.promoTypes)
    topDiscountItems := discSorted ++
      List.replicate (3 - discSorted.length) nullDiscItem }

/-- Aggregate a list of processed products. -/
def aggregate (products : List Product) : Sample :=
  finalize (aggState products)

/-- Pagination: pages `start, start+1, ...` for `n` rounds, stopping at
the first page that yields zero products. -/
def collectFrom (fetch : ℕ → List Product) : ℕ → ℕ → List Product
  | _, 0 => []
  | start, n + 1 =>
    match fetch start with
    | [] => []
    | p :: ps => (p :: ps) ++ collectFrom fetch (start + 1) n

/-- `fetch_goods_sample`: aggregate the products of pages `1..pages`,
stopping at the first empty page. -/
def fetchGoodsSample (fetch : ℕ → List Product) (pages : ℕ) : Sample :=
  aggregate (collectFrom fetch 1 pages)

/-! ## Passport resolver (`fetch_passport`) -/

/-- Supplier-by-id JSON body; `none` for a failed request, non-200,
empty body, or parse failure. -/
structure PassportJson where
  supplierName : Option String := none
  supplierFullName : Option String := none
  trademark : Option String := none
  inn : Option String := none
  kpp : Option String := none
  ogrn : Option String := none
deriving DecidableEq

/-- `possible_vols = [0, sid // 1000, sid // 10000]`. -/
def possibleVols (sid : ℕ) : List ℕ := [0, sid / 1000, sid / 10000]

/-- `dict.fromkeys(l)`: remove duplicates keeping first occurrences. -/
def pyDedupAux : List ℕ → List ℕ → List ℕ
  | [], _ => []
  | a :: l, seen =>
    if a ∈ seen then pyDedupAux l seen else a :: pyDedupAux l (a :: seen)

def pyDedup (l : List ℕ) : List ℕ := pyDedupAux l []

/-- The deduplicated candidate volume list tried for a seller id. -/
def fetchPassportVols (sid : ℕ) : List ℕ := pyDedup (possibleVols sid)

/-- `data and data.get("supplierName")`: a candidate's response is
accepted only when it parsed and carries a truthy seller display name. -/
def passportAccept : Option PassportJson → Bool
  | some j => strTruthy j.supplierName
  | none => false

/-- The candidate loop of `fetch_passport`: try volumes in order and stop
at the first accepted response.  Returns the accepted body (or `none`)
together with the list of volumes actually requested. -/
def passportScan (world : ℕ → Option PassportJson) :
    List ℕ → Option PassportJson × List ℕ
  | [] => (none, [])
  | v :: vs =>
    if passportAccept (world v) then (world v, [v])
    else
      let r := passportScan world vs
      (r.1, v :: r.2)

/-- `fetch_passport` against a response environment `world`. -/
def fetchPassport (world : ℕ → Option PassportJson) (sid : ℕ) :
    Option PassportJson × List ℕ :=
  passportScan world (fetchPassportVols sid)

/-! ## Row builder (body of `worker` in `export_data`) -/

/-- One CSV cell value. -/
inductive Cell where
  | null
  | int (i : ℤ)
  | num (q : ℚ)
  | str (s : String)
deriving DecidableEq

/-- The passport record consumed by the row builder. -/
structure Passport where
  supplierName : Option String := none
  supplierFullName : Option String := none
  trademark : Option String := none
  inn : Option String := none
  kpp : Option String := none
  ogrn : Option String := none
  address : Option String := none
deriving DecidableEq

def cOptS : Option String → Cell
  | some s => Cell.str s
  | none => Cell.null

def cOptI : Option Int → Cell
  | some i => Cell.int i
  | none => Cell.null

def cOptQ : Option ℚ → Cell
  | some q => Cell.num q
  | none => Cell.null

/-- `passport.get(field)` where `passport` may be the empty fallback dict. -/
def pGet (p : Option Passport) (f : Passport → Option String) : Cell :=
  cOptS (p.bind f)

/-- `sample.get(field, [])` for the list-valued fields. -/
def sampleList {α : Type} (s : Option Sample) (f : Sample → List α) : List α :=
  (s.map f).getD []

/-- `pad(lst) = (list(lst) + [None] * 3)[:3]`. -/
def pad3 {α : Type} (fill : α) (l : List α) : List α :=
  (l ++ List.replicate 3 fill).take 3

/-- `disc_items + [(None,)*8] * (3 - len(disc_items))`, then the loop's
`[:3]` slice: the three discount slots rendered into the row. -/
def discSlots (s : Option Sample) : List DiscItem :=
  let l := sampleList s Sample.topDiscountItems
  (l ++ List.replicate (3 - l.length) nullDiscItem).take 3

/-- `https://www.wildberries.ru/catalog/{gid}/detail.aspx if gid else None`. -/
def productLink : Option Int → Cell
  | some gid =>
    if gid = 0 then Cell.null
    else Cell.str ("https://www.wildberries.ru/catalog/" ++ toString gid
      ++ "/detail.aspx")
  | none => Cell.null

/-- The nine row cells rendered for one discount slot. -/
def flatDiscItem (it : DiscItem) : List Cell :=
  [cOptI it.id, productLink it.id, cOptQ it.disc, cOptS it.promo,
   cOptQ it.basic, cOptQ it.product, cOptQ it.total, cOptQ it.logistics,
   cOptQ it.rating]

/-- The constant seller display link. -/
def sellerLink (sid : ℕ) : Cell :=
  Cell.str ("https://www.wildberries.ru/seller/" ++ toString sid)

/-- The row built by `worker` for one seller id from an optional passport
and an optional aggregate sample (absent values replaced by empty dicts). -/
def buildRow (sid : ℕ) (p : Option Passport) (s : Option Sample) : List Cell :=
  [Cell.int (sid : ℤ), pGet p Passport.supplierName,
   pGet p Passport.supplierFullName, pGet p Passport.trademark,
   sellerLink sid, pGet p Passport.inn, pGet p Passport.kpp,
   pGet p Passport.ogrn, pGet p Passport.address,
   cOptI (s.map (fun x => (x.subjectsCount : ℤ)))]
  ++ (pad3 none (sampleList s Sample.topSubjects)).map cOptS
  ++ (pad3 none (sampleList s Sample.topBrands)).map cOptS
  ++ [cOptQ (s.bind Sample.priceMin), cOptQ (s.bind Sample.priceAvg),
      cOptQ (s.bind Sample.priceMax), cOptQ (s.bind Sample.basicMin),
      cOptQ (s.bind Sample.basicAvg), cOptQ (s.bind Sample.basicMax),
      cOptQ (s.bind Sample.productMin), cOptQ (s.bind Sample.productAvg),
      cOptQ (s.bind Sample.productMax), cOptQ (s.bind Sample.totalMin),
      cOptQ (s.bind Sample.totalAvg), cOptQ (s.bind Sample.totalMax),
      cOptQ (s.bind Sample.logisticsAvg), cOptQ (s.bind Sample.ratingAvgProd),
      cOptI (s.bind Sample.feedbacksSum), cOptQ (s.bind Sample.discountAvg),
      cOptQ (s.bind Sample.discountMax),
      cOptI (s.map (fun x => (x.promoCount : ℤ))),
      cOptS (s.bind Sample.promoTypes)]
  ++ ((discSlots s).map flatDiscItem).flatten

/-- The fixed output column schema (`COLUMNS`). -/
def COLUMNS : List String :=
  ["ID", "Продавец", "Полное название", "Торговая марка", "Ссылка", "ИНН",
   "КПП", "ОГРН", "Адрес", "Категорий",
   "Топ категория 1", "Топ категория 2", "Топ категория 3",
   "Топ бренд 1", "Топ бренд 2", "Топ бренд 3",
   "Цена мин", "Цена средн", "Цена макс",
   "Цена basic мин", "Цена basic средн", "Цена basic макс",
   "Цена product мин", "Цена product средн", "Цена product макс",
   "Цена total мин", "Цена total средн", "Цена total макс",
   "Цена logistics средн", "Ср. рейтинг товаров", "Сумма отзывов товаров",
   "Ср. скидка %", "Макс. скидка %", "Кол-во акций", "Типы акций",
   "СкидТовар1", "СсылкаТовар1", "Скид%1", "Акция1", "Цена basic 1",
   "Цена product 1", "Цена total 1", "Цена logistics 1", "Рейтинг1",
   "СкидТовар2", "СсылкаТовар2", "Скид%2", "Акция2", "Цена basic 2",
   "Цена product 2", "Цена total 2", "Цена logistics 2", "Рейтинг2",
   "СкидТовар3", "СсылкаТовар3", "Скид%3", "Акция3", "Цена basic 3",
   "Цена product 3", "Цена total 3", "Цена logistics 3", "Рейтинг3"]

/-! ## Worker progress loop (`export_data`) -/

/-- One worker iteration for one seller id: on success the row is
appended, on a caught per-seller exception it is skipped; either way the
progress callback is then invoked with `(len(rows), total)`.  The state
is `(rows, recorded progress calls)`. -/
def runStep (outcome : ℕ → Option (List Cell)) (total : ℕ)
    (st : List (List Cell) × List (ℕ × ℕ)) (sid : ℕ) :
    List (List Cell) × List (ℕ × ℕ) :=
  let rows :=
    match outcome sid with
    | some r => st.1 ++ [r]
    | none => st.1
  (rows, st.2 ++ [(rows.length, total)])

/-- The whole run over the enqueued ids (worker interleaving serialized):
final row list and the sequence of progress-callback invocations. -/
def runAll (outcome : ℕ → Option (List Cell)) (ids : List ℕ) :
    List (List Cell) × List (ℕ × ℕ) :=
  ids.foldl (runStep outcome ids.length) ([], [])

/-- A fault-free run: every id yields its built row. -/
def runFaultFree (fp : ℕ → Option Passport) (fs : ℕ → Option Sample)
    (ids : List ℕ) : List (List Cell) × List (ℕ × ℕ) :=
  runAll (fun sid => some (buildRow sid (fp sid) (fs sid))) ids

/-! ## Spec-side characterizations and concrete fixtures -/

/-- Annotate list elements with their positions, starting at `n`. -/
def withIdx {α : Type} : ℕ → List α → List (ℕ × α)
  | _, [] => []
  | n, a :: l => (n, a) :: withIdx (n + 1) l

/-- The spec's ranking order on position-annotated entries: descending
key, ties broken by the original (first-insertion / encounter) order. -/
def stableRel {α β : Type} [LinearOrder β] (key : α → β)
    (p q : ℕ × α) : Prop :=
  key q.2 < key p.2 ∨ (key p.2 = key q.2 ∧ p.1 < q.1)

/-- The discount rule as the spec words it: `round((basic - sale) /
basic * 100, 1)` when both basic and sale are present and `basic > 0`,
else `0`. -/
def specDiscountPercent (basic sale : Option ℚ) : ℚ :=
  if basic ≠ none ∧ sale ≠ none ∧ 0 < basic.getD 0 then
    pyRound ((basic.getD 0 - sale.getD 0) / basic.getD 0 * 100) 1
  else 0

/-- Fixture: a product with raw basic 10000 and sale 8000 minor units
(100 and 80 rubles). -/
def gBasicSale : Product := { price := some [("basic", 10000), ("product", 8000)] }

/-- Fixture: a product whose price block carries an explicit zero basic
price next to a present sale price. -/
def gZeroBasic : Product := { price := some [("basic", 0), ("product", 8000)] }

/-- Fixture: zero basic price in the block and no legacy fallback. -/
def gZeroOnly : Product := { price := some [("basic", 0)] }

/-- Fixture: present basic and sale prices plus an explicit zero total. -/
def gZeroTotal : Product :=
  { price := some [("basic", 10000), ("product", 8000), ("total", 0)] }

/-- Fixture: a product priced only through the legacy `priceU` field. -/
def gPriceU : Product := { priceU := some 14900 }

/-- Fixture: an accepted passport body. -/
def jsonAccepted : PassportJson := { supplierName := some "OOO Test" }

/-- Fixture: a response environment answering only on volume 0. -/
def worldVol0 : ℕ → Option PassportJson :=
  fun v => if v = 0 then some jsonAccepted else none

/-! ## Supporting lemmas: the stable descending sort -/

theorem insKey_perm {α β : Type} [LinearOrder β] (key : α → β) (a : α)
    (l : List α) : List.Perm (insKey key a l) (a :: l) := by
  induction l with
  | nil => simp [insKey]
  | cons b t ih =>
    by_cases h : key b ≤ key a
    · simp [insKey, h]
    · simp only [insKey, if_neg h]
      exact (List.Perm.cons b ih).trans (List.Perm.swap a b t)

theorem sortKey_perm {α β : Type} [LinearOrder β] (key : α → β)
    (l : List α) : List.Perm (sortKey key l) l := by
  induction l with
  | nil => simp [sortKey]
  | cons a t ih =>
    exact (insKey_perm key a (sortKey key t)).trans (ih.cons a)

theorem sortKey_length {α β : Type} [LinearOrder β] (key : α → β)
    (l : List α) : (sortKey key l).length = l.length :=
  (sortKey_perm key l).length_eq

theorem mem_insKey {α β : Type} [LinearOrder β] {key : α → β} {a x : α}
    {l : List α} (hx : x ∈ insKey key a l) : x = a ∨ x ∈ l := by
  have := (insKey_perm key a l).mem_iff.mp hx
  simpa using this

theorem insKey_map {α γ β : Type} [LinearOrder β] (key : α → β)
    (f : γ → α) (a : γ) (l : List γ) :
    (insKey (fun x => key (f x)) a l).map f = insKey key (f a) (l.map f) := by
  induction l with
  | nil => simp [insKey]
  | cons b t ih =>
    by_cases h : key (f b) ≤ key (f a)
    · simp [insKey, h]
    · simp [insKey, h, ih]

theorem sortKey_map {α γ β : Type} [LinearOrder β] (key : α → β)
    (f : γ → α) (l : List γ) :
    (sortKey (fun x => key (f x)) l).map f = sortKey key (l.map f) := by
  induction l with
  | nil => simp [sortKey]
  | cons a t ih => simp only [sortKey, List.map_cons, insKey_map, ih]

theorem withIdx_map_snd {α : Type} (n : ℕ) (l : List α) :
    (withIdx n l).map Prod.snd = l := by
  induction l generalizing n with
  | nil => simp [withIdx]
  | cons a t ih => simp [withIdx, ih]

theorem mem_withIdx_le {α : Type} {n : ℕ} {l : List α} {p : ℕ × α}
    (hp : p ∈ withIdx n l) : n ≤ p.1 := by
  induction l generalizing n with
  | nil => simp [withIdx] at hp
  | cons a t ih =>
    simp only [withIdx, List.mem_cons] at hp
    rcases hp with rfl | hp
    · exact le_refl n
    · exact le_trans (Nat.le_succ n) (ih hp)

theorem withIdx_pairwise {α : Type} (n : ℕ) (l : List α) :
    (withIdx n l).Pairwise (fun p q => p.1 < q.1) := by
  induction l generalizing n with
  | nil => simp [withIdx]
  | cons a t ih =>
    refine List.Pairwise.cons ?_ (ih (n + 1))
    intro q hq
    exact lt_of_lt_of_le (Nat.lt_succ_self n) (mem_withIdx_le hq)

theorem insKey_pairwise_stable {α β : Type} [LinearOrder β] (key : α → β)
    (a : ℕ × α) (m : List (ℕ × α)) (hm : m.Pairwise (stableRel key))
    (ha : ∀ b ∈ m, a.1 < b.1) :
    (insKey (fun p => key p.2) a m).Pairwise (stableRel key) := by
  induction m with
  | nil => simp [insKey, List.pairwise_cons]
  | cons b t ih =>
    rw [List.pairwise_cons] at hm
    obtain ⟨hbt, hpt⟩ := hm
    by_cases h : key b.2 ≤ key a.2
    · simp only [insKey, if_pos h]
      refine List.Pairwise.cons ?_ (List.Pairwise.cons hbt hpt)
      intro y hy
      rcases List.mem_cons.mp hy with rfl | hyt
      · rcases lt_or_eq_of_le h with hlt | heq
        · exact Or.inl hlt
        · exact Or.inr ⟨heq.symm, ha y (List.mem_cons_self y t)⟩
      · rcases hbt y hyt with hlt | ⟨heq, _⟩
        · exact Or.inl (lt_of_lt_of_le hlt h)
        · rcases lt_or_eq_of_le h with hblt | hbeq
          · exact Or.inl (heq ▸ hblt)
          · exact Or.inr ⟨hbeq.symm.trans heq,
              ha y (List.mem_cons_of_mem b hyt)⟩
    · simp only [insKey, if_neg h]
      have hab : key a.2 < key b.2 := lt_of_not_le h
      refine List.Pairwise.cons ?_
        (ih hpt (fun c hc => ha c (List.mem_cons_of_mem b hc)))
      intro y hy
      rcases mem_insKey hy with rfl | hyt
      · exact Or.inl hab
      · exact hbt y hyt

theorem sortKey_pairwise_stable {α β : Type} [LinearOrder β] (key : α → β)
    (l : List (ℕ × α)) (hl : l.Pairwise (fun p q => p.1 < q.1)) :
    (sortKey (fun p => key p.2) l).Pairwise (stableRel key) := by
  induction l with
  | nil => simp [sortKey]
  | cons a t ih =>
    rw [List.pairwise_cons] at hl
    obtain ⟨hat, hpt⟩ := hl
    simp only [sortKey]
    refine insKey_pairwise_stable key a _ (ih hpt) ?_
    intro b hb
    exact hat b ((sortKey_perm (fun p => key p.2) t).mem_iff.mp hb)

theorem sortKey_withIdx_snd {α β : Type} [LinearOrder β] (key : α → β)
    (l : List α) :
    (sortKey (fun p : ℕ × α => key p.2) (withIdx 0 l)).map Prod.snd =
      sortKey key l := by
  have h := sortKey_map key (Prod.snd : ℕ × α → α) (withIdx 0 l)
  rw [h, withIdx_map_snd]

/-! ## Supporting lemmas: rounding and aggregates -/

theorem ratFloor_intCast (z : ℤ) : ratFloor (z : ℚ) = z := by
  simp [ratFloor, Rat.intCast_num, Rat.intCast_den, Int.fdiv_one]

theorem roundHalfEvenZ_intCast (z : ℤ) : roundHalfEvenZ (z : ℚ) = z := by
  unfold roundHalfEvenZ
  rw [ratFloor_intCast]
  norm_num

/-- Python `round` is the identity on integer-valued rationals. -/
theorem pyRound_int (z : ℤ) (n : ℕ) : pyRound (z : ℚ) n = z := by
  unfold pyRound
  have h : ((z : ℚ)) * 10 ^ n = ((z * 10 ^ n : ℤ) : ℚ) := by push_cast; ring
  rw [h, roundHalfEvenZ_intCast]
  have hp : ((10 : ℚ)) ^ n ≠ 0 := by positivity
  push_cast
  field_simp

theorem listMin_eq_none {l : List ℚ} : listMin l = none ↔ l = [] := by
  cases l <;> simp [listMin]

theorem listMax_eq_none {l : List ℚ} : listMax l = none ↔ l = [] := by
  cases l <;> simp [listMax]

theorem avgR_eq_none {nd : ℕ} {l : List ℚ} : avgR nd l = none ↔ l = [] := by
  cases l <;> simp [avgR]

theorem sumOpt_eq_none {l : List Int} : sumOpt l = none ↔ l = [] := by
  cases l <;> simp [sumOpt]

theorem avgR_of_ne_nil {nd : ℕ} {l : List ℚ} (h : l ≠ []) :
    avgR nd l = some (pyRound (l.sum / l.length) nd) := by
  cases l with
  | nil => exact absurd rfl h
  | cons a t => simp [avgR]

/-! ## Supporting lemmas: padding and lengths -/

theorem pad3_length {α : Type} (fill : α) (l : List α) :
    (pad3 fill l).length = 3 := by
  simp [pad3, List.length_take]

theorem discSlots_length (s : Option Sample) : (discSlots s).length = 3 := by
  simp [discSlots, List.length_take]
  omega

theorem topN_length_le (d : List (String × ℕ)) : (topN d).length ≤ 3 := by
  simp [topN, List.length_take]

theorem topN_length (d : List (String × ℕ)) :
    (topN d).length = min 3 d.length := by
  simp [topN, List.length_take, sortKey_length]

theorem topDisc_length (items : List DiscItem) :
    (topDisc items).length = min 3 items.length := by
  simp [topDisc, List.length_take, sortKey_length]

theorem flatten_flatDiscItem_length (l : List DiscItem) :
    ((l.map flatDiscItem).flatten).length = 9 * l.length := by
  induction l with
  | nil => simp
  | cons a t ih =>
    simp [flatDiscItem, ih]
    ring

/-! ## Supporting lemmas: the aggregation fold -/

theorem foldl_discountItems (l : List Product) (st : AggState) :
    ((l.foldl stepProduct st).discountItems) =
      st.discountItems ++ l.map discItemOf := by
  induction l generalizing st with
  | nil => simp
  | cons g t ih =>
    rw [List.foldl_cons, ih]
    simp [stepProduct]

theorem foldl_discList (l : List Product) (st : AggState) :
    ((l.foldl stepProduct st).discList) =
      st.discList ++ l.map prodDiscount := by
  induction l generalizing st with
  | nil => simp
  | cons g t ih =>
    rw [List.foldl_cons, ih]
    simp [stepProduct]

theorem aggState_discountItems_length (l : List Product) :
    ((aggState l).discountItems).length = l.length := by
  have h := foldl_discountItems l {}
  simp [aggState, h]

/-! ## Supporting lemmas: the worker progress fold -/

theorem runStep_foldl_calls_length (out : ℕ → Option (List Cell))
    (total : ℕ) (ids : List ℕ)
    (st : List (List Cell) × List (ℕ × ℕ)) :
    ((ids.foldl (runStep out total) st).2).length =
      st.2.length + ids.length := by
  induction ids generalizing st with
  | nil => simp
  | cons i t ih =>
    rw [List.foldl_cons, ih]
    simp [runStep]
    omega

theorem runStep_foldl_rows_length (out : ℕ → Option (List Cell))
    (total : ℕ) (ids : List ℕ)
    (st : List (List Cell) × List (ℕ × ℕ)) :
    ((ids.foldl (runStep out total) st).1).length =
      st.1.length + ids.countP (fun i => (out i).isSome) := by
  induction ids generalizing st with
  | nil => simp
  | cons i t ih =>
    rw [List.foldl_cons, ih]
    cases h : out i
    · simp [runStep, h, List.countP_cons]
    · simp [runStep, h, List.countP_cons]
      omega

theorem runStep_foldl_total (out : ℕ → Option (List Cell)) (total : ℕ)
    (ids : List ℕ) (st : List (List Cell) × List (ℕ × ℕ))
    (hst : ∀ c ∈ st.2, c.2 = total) :
    ∀ c ∈ (ids.foldl (runStep out total) st).2, c.2 = total := by
  induction ids generalizing st with
  | nil => exact hst
  | cons i t ih =>
    rw [List.foldl_cons]
    refine ih _ ?_
    intro c hc
    simp only [runStep, List.mem_append, List.mem_singleton] at hc
    rcases hc with hc | rfl
    · exact hst c hc
    · rfl

theorem runStep_foldl_last (out : ℕ → Option (List Cell)) (total : ℕ)
    (ids : List ℕ) (st : List (List Cell) × List (ℕ × ℕ))
    (hne : ids ≠ []) :
    ((ids.foldl (runStep out total) st).2).getLast? =
      some (((ids.foldl (runStep out total) st).1).length, total) := by
  induction ids generalizing st with
  | nil => exact absurd rfl hne
  | cons i t ih =>
    rw [List.foldl_cons]
    cases t with
    | nil =>
      simp only [List.foldl_nil]
      cases h : out i <;>
        simp [runStep, h, List.getLast?_concat]
    | cons j u => exact ih _ (by simp)

/-! ## Supporting lemmas: the passport candidate loop -/

theorem passportScan_first_accept (world : ℕ → Option PassportJson)
    (l₁ l₂ : List ℕ) (v : ℕ)
    (h₁ : ∀ u ∈ l₁, passportAccept (world u) = false)
    (hv : passportAccept (world v) = true) :
    passportScan world (l₁ ++ v :: l₂) = (world v, l₁ ++ [v]) := by
  induction l₁ with
  | nil => simp [passportScan, hv]
  | cons u t ih =>
    have hu : passportAccept (world u) = false :=
      h₁ u (List.mem_cons_self u t)
    have ht := ih (fun x hx => h₁ x (List.mem_cons_of_mem u hx))
    simp [passportScan, hu, ht]

/-! ## Supporting lemmas: `aggregate` field unfoldings -/

theorem aggregate_topSubjects (l : List Product) :
    (aggregate l).topSubjects =
      (topN (aggState l).cats).map (fun c => some c.1) ++
        List.replicate (3 - (topN (aggState l).cats).length) none := rfl

theorem aggregate_topBrands (l : List Product) :
    (aggregate l).topBrands =
      (topN (aggState l).brands).map (fun b => some b.1) ++
        List.replicate (3 - (topN (aggState l).brands).length) none := rfl

theorem aggregate_topDiscountItems (l : List Product) :
    (aggregate l).topDiscountItems =
      topDisc (aggState l).discountItems ++
        List.replicate (3 - (topDisc (aggState l).discountItems).length)
          nullDiscItem := rfl

theorem aggregate_priceMin (l : List Product) :
    (aggregate l).priceMin = listMin (aggState l).prices := rfl

theorem aggregate_priceAvg (l : List Product) :
    (aggregate l).priceAvg = avgR 2 (aggState l).prices := rfl

theorem aggregate_priceMax (l : List Product) :
    (aggregate l).priceMax = listMax (aggState l).prices := rfl

theorem aggregate_basicMin (l : List Product) :
    (aggregate l).basicMin = listMin (aggState l).basicPrices := rfl

theorem aggregate_basicAvg (l : List Product) :
    (aggregate l).basicAvg = avgR 2 (aggState l).basicPrices := rfl

theorem aggregate_basicMax (l : List Product) :
    (aggregate l).basicMax = listMax (aggState l).basicPrices := rfl

theorem aggregate_productMin (l : List Product) :
    (aggregate l).productMin = listMin (aggState l).productPrices := rfl

theorem aggregate_productAvg (l : List Product) :
    (aggregate l).productAvg = avgR 2 (aggState l).productPrices := rfl

theorem aggregate_productMax (l : List Product) :
    (aggregate l).productMax = listMax (aggState l).productPrices := rfl

theorem aggregate_totalMin (l : List Product) :
    (aggregate l).totalMin = listMin (aggState l).totalPrices := rfl

theorem aggregate_totalAvg (l : List Product) :
    (aggregate l).totalAvg = avgR 2 (aggState l).totalPrices := rfl

theorem aggregate_totalMax (l : List Product) :
    (aggregate l).totalMax = listMax (aggState l).totalPrices := rfl

theorem aggregate_logisticsAvg (l : List Product) :
    (aggregate l).logisticsAvg = avgR 2 (aggState l).logisticsPrices := rfl

theorem aggregate_ratingAvgProd (l : List Product) :
    (aggregate l).ratingAvgProd = avgR 2 (aggState l).ratings := rfl

theorem aggregate_feedbacksSum (l : List Product) :
    (aggregate l).feedbacksSum = sumOpt (aggState l).feedbacks := rfl

theorem aggregate_discountAvg (l : List Product) :
    (aggregate l).discountAvg = avgR 1 (aggState l).discList := rfl

theorem aggregate_discountMax (l : List Product) :
    (aggregate l).discountMax = listMax (aggState l).discList := rfl

/-! ## Claim C1 -/

/-- C1 counterexample: for SellerId 893739 the deduplicated candidate
volume list is `[0, 893, 89]` (since `893739 div 10000 = 89`), not the
claimed `[0, 893]`. -/
theorem c1_vols_counterexample :
    fetchPassportVols 893739 = [0, 893, 89] ∧
      fetchPassportVols 893739 ≠ [0, 893] := by
  decide

/-- C1 (amended): for SellerId 893739 the ordered, first-occurrence-
deduplicated candidate volume list is exactly `[0, 893, 89]`, and
whenever a candidate is the first whose response carries a truthy seller
display name, the resolver returns that response having requested only
the candidates up to and including it — later candidates are never
requested. -/
theorem c1_passport_vols_early_stop :
    fetchPassportVols 893739 = [0, 893, 89] ∧
    ∀ (world : ℕ → Option PassportJson) (l₁ l₂ : List ℕ) (v : ℕ),
      fetchPassportVols 893739 = l₁ ++ v :: l₂ →
      (∀ u ∈ l₁, passportAccept (world u) = false) →
      passportAccept (world v) = true →
      fetchPassport world 893739 = (world v, l₁ ++ [v]) := by
  refine ⟨by decide, ?_⟩
  intro world l₁ l₂ v hd h₁ hv
  unfold fetchPassport
  rw [hd]
  exact passportScan_first_accept world l₁ l₂ v h₁ hv

/-- C1 witness: with volume 0 answering an accepted body, the resolver
returns it and requests volume 0 only. -/
theorem c1_passport_vols_early_stop_witness :
    fetchPassport worldVol0 893739 = (some jsonAccepted, [0]) := by
  have h := c1_passport_vols_early_stop.2 worldVol0 [] [893, 89] 0
    (by decide) (by simp) (by decide)
  simpa [worldVol0] using h

/-! ## Claim C2 -/

/-- C2 counterexample: with one enqueued id whose processing fails, the
final progress invocation reports `(0, 1)`, not `completed = total = 1`:
the callback receives the count of rows appended so far, which excludes
failed ids. -/
theorem c2_failed_id_progress_counterexample :
    (runAll (fun _ => none) [1]).2.getLast? = some (0, 1) ∧
      some ((0 : ℕ), (1 : ℕ)) ≠ some (1, 1) := by
  refine ⟨rfl, by decide⟩

/-- C2 (amended): over `N` enqueued ids the progress callback is invoked
once after each id (success or failure) with the current number of rows
appended so far and the original total `N`; the final invocation reports
`(r, N)` where `r` counts the ids that succeeded, so it is `(N, N)`
exactly when every id succeeded. -/
theorem c2_progress_calls (out : ℕ → Option (List Cell)) (ids : List ℕ) :
    ((runAll out ids).2).length = ids.length ∧
    (∀ c ∈ (runAll out ids).2, c.2 = ids.length) ∧
    (ids ≠ [] → ((runAll out ids).2).getLast? =
      some (((runAll out ids).1).length, ids.length)) ∧
    ((∀ i ∈ ids, (out i).isSome) →
      ((runAll out ids).1).length = ids.length) := by
  refine ⟨?_, ?_, ?_, ?_⟩
  · simpa [runAll] using
      runStep_foldl_calls_length out ids.length ids ([], [])
  · intro c hc
    exact runStep_foldl_total out ids.length ids ([], []) (by simp) c
      (by simpa [runAll] using hc)
  · intro h
    simpa [runAll] using runStep_foldl_last out ids.length ids ([], []) h
  · intro h
    have hc : ids.countP (fun i => (out i).isSome) = ids.length :=
      List.countP_eq_length.mpr (fun a ha => by simpa using h a ha)
    simpa [runAll, hc] using
      runStep_foldl_rows_length out ids.length ids ([], [])

/-- C2 witness: a one-id all-success run ends with the final call
`(1, 1)`. -/
theorem c2_progress_calls_witness :
    (([3] : List ℕ) ≠ []) ∧
      (runAll (fun _ => some []) [3]).2.getLast? = some (1, 1) := by
  have h := c2_progress_calls (fun _ => some []) [3]
  have h3 := h.2.2.1 (by simp)
  have h4 := h.2.2.2 (by intro i _; rfl)
  rw [h4] at h3
  exact ⟨by simp, h3⟩

/-! ## Claim C8 -/

/-- C8 (confirmed): the ranked top-3 categories/brands and top-3 discount
records are the first three entries of the stable descending sort: the
sorted sequence is a permutation of the entries, is ordered so that a
later entry never has a larger key, and breaks key ties by original
(first-insertion / encounter) order, as witnessed on position-annotated
entries. -/
theorem c8_top3_stable_ranking (d : List (String × ℕ))
    (items : List DiscItem) :
    (topN d =
        ((sortKey (fun p : ℕ × (String × ℕ) => p.2.2) (withIdx 0 d)).map
          Prod.snd).take 3 ∧
      List.Perm (sortKey (fun p : ℕ × (String × ℕ) => p.2.2) (withIdx 0 d))
        (withIdx 0 d) ∧
      (sortKey (fun p : ℕ × (String × ℕ) => p.2.2) (withIdx 0 d)).Pairwise
        (stableRel (fun e : String × ℕ => e.2))) ∧
    (topDisc items =
        ((sortKey (fun p : ℕ × DiscItem => discKey p.2)
          (withIdx 0 items)).map Prod.snd).take 3 ∧
      List.Perm (sortKey (fun p : ℕ × DiscItem => discKey p.2)
        (withIdx 0 items)) (withIdx 0 items) ∧
      (sortKey (fun p : ℕ × DiscItem => discKey p.2)
        (withIdx 0 items)).Pairwise (stableRel discKey)) := by
  constructor
  · refine ⟨?_, sortKey_perm _ _,
      sortKey_pairwise_stable (fun e : String × ℕ => e.2) _
        (withIdx_pairwise 0 d)⟩
    rw [sortKey_withIdx_snd (fun e : String × ℕ => e.2) d]
    rfl
  · refine ⟨?_, sortKey_perm _ _,
      sortKey_pairwise_stable discKey _ (withIdx_pairwise 0 items)⟩
    rw [sortKey_withIdx_snd discKey items]
    rfl

/-! ## Claim C4 -/

/-- C4 (confirmed): for every seller, the ranked top-3 category, brand
and discount lists have exactly 3 slots — both as produced by the
aggregator and after the row builder's re-padding (also when the whole
sample is absent) — and every slot beyond the observed distinct values
is an explicit null (the all-null 8-field record for discount items). -/
theorem c4_ranked_lists_exactly_three (products : List Product)
    (s : Option Sample) :
    ((aggregate products).topSubjects.length = 3) ∧
    ((aggregate products).topBrands.length = 3) ∧
    ((aggregate products).topDiscountItems.length = 3) ∧
    ((pad3 none (sampleList s Sample.topSubjects)).length = 3) ∧
    ((pad3 none (sampleList s Sample.topBrands)).length = 3) ∧
    ((discSlots s).length = 3) ∧
    (∀ i, ((aggState products).cats).length ≤ i → i < 3 →
      (aggregate products).topSubjects[i]? = some none) ∧
    (∀ i, ((aggState products).brands).length ≤ i → i < 3 →
      (aggregate products).topBrands[i]? = some none) ∧
    (∀ i, products.length ≤ i → i < 3 →
      (aggregate products).topDiscountItems[i]? = some nullDiscItem) := by
  have hcats := topN_length (aggState products).cats
  have hbrands := topN_length (aggState products).brands
  have hitems := topDisc_length (aggState products).discountItems
  have hlen := aggState_discountItems_length products
  refine ⟨?_, ?_, ?_, pad3_length _ _, pad3_length _ _, discSlots_length s,
    ?_, ?_, ?_⟩
  · rw [aggregate_topSubjects]
    simp only [List.length_append, List.length_map, List.length_replicate]
    omega
  · rw [aggregate_topBrands]
    simp only [List.length_append, List.length_map, List.length_replicate]
    omega
  · rw [aggregate_topDiscountItems]
    simp only [List.length_append, List.length_replicate]
    omega
  · intro i hle hlt
    rw [aggregate_topSubjects,
      List.getElem?_append_right (by simp only [List.length_map]; omega),
      List.getElem?_replicate,
      if_pos (by simp only [List.length_map]; omega)]
  · intro i hle hlt
    rw [aggregate_topBrands,
      List.getElem?_append_right (by simp only [List.length_map]; omega),
      List.getElem?_replicate,
      if_pos (by simp only [List.length_map]; omega)]
  · intro i hle hlt
    rw [aggregate_topDiscountItems,
      List.getElem?_append_right (by omega),
      List.getElem?_replicate,
      if_pos (by omega)]

/-- C4 witness: with no products and no sample, every slot of every
ranked list is the explicit null. -/
theorem c4_ranked_lists_exactly_three_witness :
    (aggregate []).topSubjects[0]? = some none ∧
      (aggregate []).topDiscountItems[2]? = some nullDiscItem ∧
      (discSlots none).length = 3 := by
  have h := c4_ranked_lists_exactly_three [] none
  exact ⟨h.2.2.2.2.2.2.1 0 (by decide) (by decide),
    h.2.2.2.2.2.2.2.2 2 (by decide) (by decide), h.2.2.2.2.2.1⟩

/-! ## Claim C6 -/

/-- C6 (confirmed): every aggregate over a contributing list (price
min/avg/max for the legacy and each component list, rating average,
feedback sum, discount average and maximum) is null exactly when zero
contributing values were observed, and `priceAvg` is
`round(mean(presentValues), 2)` whenever its list is nonempty. -/
theorem c6_aggregates_null_iff_empty (products : List Product) :
    ((aggregate products).priceMin = none ↔
      (aggState products).prices = []) ∧
    ((aggregate products).priceAvg = none ↔
      (aggState products).prices = []) ∧
    ((aggregate products).priceMax = none ↔
      (aggState products).prices = []) ∧
    ((aggregate products).basicMin = none ↔
      (aggState products).basicPrices = []) ∧
    ((aggregate products).basicAvg = none ↔
      (aggState products).basicPrices = []) ∧
    ((aggregate products).basicMax = none ↔
      (aggState products).basicPrices = []) ∧
    ((aggregate products).productMin = none ↔
      (aggState products).productPrices = []) ∧
    ((aggregate products).productAvg = none ↔
      (aggState products).productPrices = []) ∧
    ((aggregate products).productMax = none ↔
      (aggState products).productPrices = []) ∧
    ((aggregate products).totalMin = none ↔
      (aggState products).totalPrices = []) ∧
    ((aggregate products).totalAvg = none ↔
      (aggState products).totalPrices = []) ∧
    ((aggregate products).totalMax = none ↔
      (aggState products).totalPrices = []) ∧
    ((aggregate products).logisticsAvg = none ↔
      (aggState products).logisticsPrices = []) ∧
    ((aggregate products).ratingAvgProd = none ↔
      (aggState products).ratings = []) ∧
    ((aggregate products).feedbacksSum = none ↔
      (aggState products).feedbacks = []) ∧
    ((aggregate products).discountAvg = none ↔
      (aggState products).discList = []) ∧
    ((aggregate products).discountMax = none ↔
      (aggState products).discList = []) ∧
    ((aggState products).prices ≠ [] →
      (aggregate products).priceAvg =
        some (pyRound ((aggState products).prices.sum /
          (aggState products).prices.length) 2)) := by
  refine ⟨?_, ?_, ?_, ?_, ?_, ?_, ?_, ?_, ?_, ?_, ?_, ?_, ?_, ?_, ?_, ?_,
    ?_, ?_⟩
  · rw [aggregate_priceMin]; exact listMin_eq_none
  · rw [aggregate_priceAvg]; exact avgR_eq_none
  · rw [aggregate_priceMax]; exact listMax_eq_none
  · rw [aggregate_basicMin]; exact listMin_eq_none
  · rw [aggregate_basicAvg]; exact avgR_eq_none
  · rw [aggregate_basicMax]; exact listMax_eq_none
  · rw [aggregate_productMin]; exact listMin_eq_none
  · rw [aggregate_productAvg]; exact avgR_eq_none
  · rw [aggregate_productMax]; exact listMax_eq_none
  · rw [aggregate_totalMin]; exact listMin_eq_none
  · rw [aggregate_totalAvg]; exact avgR_eq_none
  · rw [aggregate_totalMax]; exact listMax_eq_none
  · rw [aggregate_logisticsAvg]; exact avgR_eq_none
  · rw [aggregate_ratingAvgProd]; exact avgR_eq_none
  · rw [aggregate_feedbacksSum]; exact sumOpt_eq_none
  · rw [aggregate_discountAvg]; exact avgR_eq_none
  · rw [aggregate_discountMax]; exact listMax_eq_none
  · intro h
    rw [aggregate_priceAvg]
    exact avgR_of_ne_nil h

/-- C6 witness: a seller with one product priced through the legacy
field has a nonempty legacy price list, and `priceAvg` is the rounded
mean of it. -/
theorem c6_aggregates_null_iff_empty_witness :
    (aggState [gPriceU]).prices ≠ [] ∧
      (aggregate [gPriceU]).priceAvg =
        some (pyRound ((aggState [gPriceU]).prices.sum /
          (aggState [gPriceU]).prices.length) 2) := by
  have hraw : rawBasicOf gPriceU = some 14900 := by decide
  have hprod : productOf gPriceU = none := by decide
  have hb : basicOf gPriceU = some ((14900 : ℚ) / 100) := by
    unfold basicOf
    rw [hraw]
    norm_num [toRub]
  have hne : (aggState [gPriceU]).prices ≠ [] := by
    simp [aggState, stepProduct, promoPriceOf, hprod, hb]
  exact ⟨hne, (c6_aggregates_null_iff_empty [gPriceU]).2.2.2.2.2.2.2.2.2.2.2.2.2.2.2.2.2 hne⟩

/-! ## Supporting lemmas: concrete price evaluations -/

theorem toRub_some_ne {v : ℤ} (hv : v ≠ 0) :
    toRub (some v) = some ((v : ℚ) / 100) := by
  simp [toRub, hv]

theorem toRub_zero_or_none {o : Option ℤ}
    (h : o = some 0 ∨ o = none) : toRub o = none := by
  rcases h with rfl | rfl <;> simp [toRub]

theorem basicOf_eval_100 {g : Product} (hb : rawBasicOf g = some 10000) :
    basicOf g = some 100 := by
  unfold basicOf
  rw [hb, toRub_some_ne (by norm_num)]
  norm_num

theorem productOf_eval_80 {g : Product}
    (hp : rawProductOf g = some 8000) : productOf g = some 80 := by
  unfold productOf
  rw [hp, toRub_some_ne (by norm_num)]
  norm_num

theorem prodDiscount_eval_20 {g : Product}
    (hb : rawBasicOf g = some 10000) (hp : rawProductOf g = some 8000) :
    prodDiscount g = 20 := by
  unfold prodDiscount
  rw [basicOf_eval_100 hb, productOf_eval_80 hp]
  show (if (0 : ℚ) < 100 then pyRound (((100 : ℚ) - 80) / 100 * 100) 1
    else 0) = 20
  have harg : ((100 : ℚ) - 80) / 100 * 100 = 20 := by norm_num
  rw [if_pos (by norm_num : (0 : ℚ) < 100), harg]
  have h20 := pyRound_int 20 1
  push_cast at h20
  exact h20

/-! ## Claim C3 -/

/-- C3 (confirmed): a product's discount percent is
`round((basic - sale) / basic * 100, 1)` exactly when both converted
prices are present and `basic > 0`, and `0` in every other case; every
product contributes exactly one (never-null) discount value to the
discount list; `basic = 100, sale = 80` yields `20.0` and a zero raw
basic yields `0`. -/
theorem c3_discount_percent (g : Product) :
    prodDiscount g = specDiscountPercent (basicOf g) (productOf g) ∧
    (∀ l : List Product, (aggState l).discList = l.map prodDiscount) ∧
    prodDiscount gBasicSale = 20 ∧
    prodDiscount gZeroBasic = 0 := by
  refine ⟨?_, ?_, ?_, ?_⟩
  · cases hb : basicOf g <;> cases hp : productOf g <;>
      simp [prodDiscount, specDiscountPercent, hb, hp]
  · intro l
    simpa using foldl_discList l {}
  · exact prodDiscount_eval_20 (by decide) (by decide)
  · have hb : basicOf gZeroBasic = none := by decide
    have hp : productOf gZeroBasic = some 80 := productOf_eval_80 (by decide)
    simp [prodDiscount, hb, hp]

/-! ## Claim C9 -/

/-- C9 (confirmed): the row builder is total — for every seller id and
every combination of absent or partial passport and sample it produces a
row aligned with the fixed 62-column schema — and the per-product
display link cell is null whenever the ranked discount product id is
null. -/
theorem c9_row_builder_total (sid : ℕ) (p : Option Passport)
    (s : Option Sample) :
    (buildRow sid p s).length = COLUMNS.length ∧
    (∀ it : DiscItem, it.id = none →
      (flatDiscItem it)[1]? = some Cell.null) := by
  constructor
  · have h9 := flatten_flatDiscItem_length (discSlots s)
    rw [discSlots_length s] at h9
    have hc : COLUMNS.length = 62 := rfl
    rw [hc]
    simp [buildRow, List.length_append, List.length_map, pad3_length, h9]
  · intro it h
    simp [flatDiscItem, h, productLink]

/-- C9 witness: at a concrete id with both sources absent and the
all-null discount record. -/
theorem c9_row_builder_total_witness :
    (buildRow 2 none none).length = COLUMNS.length ∧
      (flatDiscItem nullDiscItem)[1]? = some Cell.null := by
  have h := c9_row_builder_total 2 none none
  exact ⟨h.1, h.2 nullDiscItem rfl⟩

/-! ## Claim C5 -/

/-- C5 counterexample: the row built for a dispatched id with both
passport and sample absent still carries the non-null seller display
link in its fifth column, so not every non-identifier field is null. -/
theorem c5_seller_link_not_null :
    (buildRow 1 none none)[4]? =
      some (Cell.str "https://www.wildberries.ru/seller/1") ∧
      Cell.str "https://www.wildberries.ru/seller/1" ≠ Cell.null := by
  exact ⟨rfl, by decide⟩

/-- C5 (amended): every fault-free run over `N` dispatched ids appends
exactly `N` rows, one per id; a row is appended even when both passport
and sample are absent, and in that case every field is null except the
seller id (column 0) and the derived seller display link (column 4). -/
theorem c5_rows_per_id (fp : ℕ → Option Passport)
    (fs : ℕ → Option Sample) (ids : List ℕ) :
    ((runFaultFree fp fs ids).1).length = ids.length ∧
    (∀ sid : ℕ, buildRow sid none none =
      Cell.int (sid : ℤ) :: Cell.null :: Cell.null :: Cell.null ::
        sellerLink sid :: List.replicate 57 Cell.null) := by
  constructor
  · have hc : ids.countP
        (fun i => (some (buildRow i (fp i) (fs i))).isSome) = ids.length :=
      List.countP_eq_length.mpr (fun a _ => rfl)
    simpa [runFaultFree, runAll, hc] using
      runStep_foldl_rows_length
        (fun sid => some (buildRow sid (fp sid) (fs sid))) ids.length ids
        ([], [])
  · intro sid
    rfl

/-! ## Claim C7 -/

/-- C7 counterexample: a raw basic price of 0 present in the resolved
price block is not divided by 100 — it resolves to null, not to `0/100`. -/
theorem c7_zero_raw_counterexample :
    blockGet gZeroOnly "basic" = some 0 ∧ basicOf gZeroOnly = none ∧
      basicOf gZeroOnly ≠ some ((0 : ℚ) / 100) := by
  refine ⟨by decide, by decide, by decide⟩

/-- C7 (amended): every present *nonzero* raw integer price component is
converted to a decimal amount by dividing by 100, while an absent or
zero-valued component resolves to null (never 0); the resolved price
block is the nested price object, falling back to the first size
variant's price object when the primary is absent or empty. -/
theorem c7_price_conversion (g : Product) (v : ℤ) :
    (rawBasicOf g = some v → v ≠ 0 →
      basicOf g = some ((v : ℚ) / 100)) ∧
    (rawProductOf g = some v → v ≠ 0 →
      productOf g = some ((v : ℚ) / 100)) ∧
    (rawTotalOf g = some v → v ≠ 0 →
      totalOf g = some ((v : ℚ) / 100)) ∧
    (rawLogisticsOf g = some v → v ≠ 0 →
      logisticsOf g = some ((v : ℚ) / 100)) ∧
    (rawBasicOf g = some 0 ∨ rawBasicOf g = none → basicOf g = none) ∧
    (rawProductOf g = some 0 ∨ rawProductOf g = none →
      productOf g = none) ∧
    (rawTotalOf g = some 0 ∨ rawTotalOf g = none → totalOf g = none) ∧
    (rawLogisticsOf g = some 0 ∨ rawLogisticsOf g = none →
      logisticsOf g = none) ∧
    (g.price = none ∨ g.price = some [] →
      priceBlockOf g = sizesFallback g) ∧
    (∀ d, g.price = some d → d ≠ [] → priceBlockOf g = d) := by
  refine ⟨?_, ?_, ?_, ?_, ?_, ?_, ?_, ?_, ?_, ?_⟩
  · intro h hv
    unfold basicOf
    rw [h]
    exact toRub_some_ne hv
  · intro h hv
    unfold productOf
    rw [h]
    exact toRub_some_ne hv
  · intro h hv
    unfold totalOf
    rw [h]
    exact toRub_some_ne hv
  · intro h hv
    unfold logisticsOf
    rw [h]
    exact toRub_some_ne hv
  · intro h
    unfold basicOf
    exact toRub_zero_or_none h
  · intro h
    unfold productOf
    exact toRub_zero_or_none h
  · intro h
    unfold totalOf
    exact toRub_zero_or_none h
  · intro h
    unfold logisticsOf
    exact toRub_zero_or_none h
  · rintro (h | h) <;> simp [priceBlockOf, h]
  · intro d hd hne
    simp [priceBlockOf, hd, hne]

/-- C7 witness: a nonzero legacy raw price of 14900 converts to 149,
and the absent total stays null. -/
theorem c7_price_conversion_witness :
    basicOf gPriceU = some 149 ∧ totalOf gPriceU = none := by
  have h := c7_price_conversion gPriceU 14900
  have h1 := h.1 (by decide) (by norm_num)
  have h7 := h.2.2.2.2.2.2.1 (Or.inr (by decide))
  refine ⟨?_, h7⟩
  rw [h1]
  norm_num

/-! ## Claim C10 -/

/-- C10 counterexample: a zero raw `total` component is treated as
absent, but it does not make the product's discount percent 0 — with
basic 100 and sale 80 present the discount stays 20. -/
theorem c10_zero_total_counterexample :
    blockGet gZeroTotal "total" = some 0 ∧ totalOf gZeroTotal = none ∧
      prodDiscount gZeroTotal = 20 ∧ (20 : ℚ) ≠ 0 := by
  refine ⟨by decide, by decide,
    prodDiscount_eval_20 (by decide) (by decide), by norm_num⟩

/-- C10 (amended): a zero raw price component is treated as absent — a
zero basic or sale in the nested price block falls through to its legacy
fallback field, any remaining zero converts to null rather than 0.0, and
an absent component contributes to no running list; when the component
that is zero or absent (after fallback) is basic or sale, the product's
discount percent is 0. -/
theorem c10_zero_treated_absent (g : Product) :
    (blockGet g "basic" = some 0 → rawBasicOf g = g.priceU) ∧
    (blockGet g "product" = some 0 → rawProductOf g = g.salePriceU) ∧
    (rawBasicOf g = some 0 → basicOf g = none) ∧
    (rawProductOf g = some 0 → productOf g = none) ∧
    (rawTotalOf g = some 0 → totalOf g = none) ∧
    (rawLogisticsOf g = some 0 → logisticsOf g = none) ∧
    (∀ st : AggState, basicOf g = none →
      (stepProduct st g).basicPrices = st.basicPrices) ∧
    (∀ st : AggState, productOf g = none →
      (stepProduct st g).productPrices = st.productPrices) ∧
    (∀ st : AggState, totalOf g = none →
      (stepProduct st g).totalPrices = st.totalPrices) ∧
    (∀ st : AggState, logisticsOf g = none →
      (stepProduct st g).logisticsPrices = st.logisticsPrices) ∧
    ((rawBasicOf g = some 0 ∨ rawBasicOf g = none) →
      prodDiscount g = 0) ∧
    ((rawProductOf g = some 0 ∨ rawProductOf g = none) →
      prodDiscount g = 0) := by
  refine ⟨?_, ?_, ?_, ?_, ?_, ?_, ?_, ?_, ?_, ?_, ?_, ?_⟩
  · intro h
    simp [rawBasicOf, h, pyOrI]
  · intro h
    simp [rawProductOf, h, pyOrI]
  · intro h
    unfold basicOf
    exact toRub_zero_or_none (Or.inl h)
  · intro h
    unfold productOf
    exact toRub_zero_or_none (Or.inl h)
  · intro h
    unfold totalOf
    exact toRub_zero_or_none (Or.inl h)
  · intro h
    unfold logisticsOf
    exact toRub_zero_or_none (Or.inl h)
  · intro st h
    simp [stepProduct, h]
  · intro st h
    simp [stepProduct, h]
  · intro st h
    simp [stepProduct, h]
  · intro st h
    simp [stepProduct, h]
  · intro h
    have hb : basicOf g = none := by
      unfold basicOf
      exact toRub_zero_or_none h
    simp [prodDiscount, hb]
  · intro h
    have hp : productOf g = none := by
      unfold productOf
      exact toRub_zero_or_none h
    cases hcase : basicOf g <;> simp [prodDiscount, hcase, hp]

/-- C10 witness: a product with a zero basic in the price block and no
legacy fallback has an absent basic and discount percent 0. -/
theorem c10_zero_treated_absent_witness :
    rawBasicOf gZeroBasic = gZeroBasic.priceU ∧
      prodDiscount gZeroBasic = 0 := by
  have h := c10_zero_treated_absent gZeroBasic
  exact ⟨h.1 (by decide),
    h.2.2.2.2.2.2.2.2.2.2.1 (Or.inr (by decide))⟩

end WBSoft
